import Mathlib

/-!
# Verification of conduit's state compressor, visibility resolver and federation sender

A shallow embedding of the Rust sources of the conduit federated chat server:

* `src/service/rooms/state_compressor/data.rs` — binary encoding of room-state
  diffs (`save_statediff` / `get_statediff`);
* `src/service/rooms/state_accessor/mod.rs` — the visibility resolver
  (`user_can_see_event` / `server_can_see_event`);
* `src/service/sending/send.rs` — destination resolution
  (`resolve_actual_destination`, `request_well_known`, `query_srv_record`,
  `query_and_cache_override`, `handle_resolve_error`);
* `src/api/server/send.rs` — inbound transaction limits
  (`send_transaction_message_route`);
* `src/service/sending/mod.rs` — outbound queue operations
  (`send_pdu_*`, `send_edu_*`, `flush_servers`).

Machine integers are modelled as `Nat` (with explicit bounds where overflow
matters), byte strings as `List Nat`, Rust strings as `List Char`, fallible
operations as `Option`/`Except`.  External collaborators (the DNS resolver,
the HTTP client, std's IP-address parsers, ruma's server-name validation,
the key-value store and the membership provider) are oracles supplied as
function-valued parameters, constrained only by the hypotheses of the
theorems.
-/

namespace Conduit

/-! ## Byte-level helpers

`u64::to_be_bytes` / `utils::u64_from_bytes` on the Rust side: fixed-width
big-endian encoding of machine integers as byte lists. -/

/-- Big-endian byte encoding of `n` in exactly `k` bytes,
as `to_be_bytes` produces for `k = 8` (truncating modulo `256 ^ k`). -/
def toBytesBE : Nat → Nat → List Nat
  | 0, _ => []
  | k + 1, n => toBytesBE k (n / 256) ++ [n % 256]

/-- Big-endian byte decoding, as `utils::u64_from_bytes`. -/
def fromBytesBE (bs : List Nat) : Nat :=
  bs.foldl (fun a b => a * 256 + b) 0

/-- The 8-byte zero sentinel `0_u64.to_be_bytes()` separating the added and
removed sections of a state diff. -/
def zeros8 : List Nat := toBytesBE 8 0

/-! ## State compressor (`service/rooms/state_compressor/data.rs`)

A `CompressedStateEvent` is `[u8; 16]` (shortstatekey ++ shorteventid, each 8
bytes big-endian); it is modelled as a `List Nat` of length 16.  The Rust
`HashSet<CompressedStateEvent>` is modelled as the list of its elements in
iteration order. -/

/-- `StateDiff` from `state_compressor/data.rs`: optional parent
shortstatehash plus added/removed compressed state events. -/
structure StateDiff where
  parent : Option Nat
  added : List (List Nat)
  removed : List (List Nat)
deriving DecidableEq

/-- The byte value built by `Data::save_statediff`: parent handle (0 = no
parent) in 8 big-endian bytes, the added entries concatenated, then — only if
`removed` is non-empty — the 8-byte zero sentinel followed by the removed
entries concatenated. -/
def statediffValue (d : StateDiff) : List Nat :=
  toBytesBE 8 (d.parent.getD 0)
    ++ d.added.flatten
    ++ (if d.removed.isEmpty then [] else zeros8 ++ d.removed.flatten)

/-- `Data::save_statediff`: store the encoded diff under the handle's key.
The `shortstatehash_statediff` tree is modelled as a map from handle to byte
value. -/
def saveStatediff (db : Nat → Option (List Nat)) (hsh : Nat) (d : StateDiff) :
    Nat → Option (List Nat) :=
  fun k => if k = hsh then some (statediffValue d) else db k

/-- The decode loop of `Data::get_statediff`: starting after the 8 parent
bytes, repeatedly read 16-byte windows; in add mode a window that starts with
the 8-byte zero sentinel switches to removed mode and consumes only 8 bytes,
any other window is an entry of the current section.  The loop stops as soon
as fewer than 16 bytes remain (`value.get(i..i + 2 * stride)` returns `None`).
Structural recursion on the 16-element window mirrors the index arithmetic of
the Rust loop. -/
def parseDiffEntries : List Nat → Bool → List (List Nat) → List (List Nat) →
    List (List Nat) × List (List Nat)
  | b0 :: b1 :: b2 :: b3 :: b4 :: b5 :: b6 :: b7 :: b8 :: b9 :: b10 :: b11 ::
      b12 :: b13 :: b14 :: b15 :: rest, addMode, added, removed =>
    if addMode ∧ [b0, b1, b2, b3, b4, b5, b6, b7] = zeros8 then
      parseDiffEntries (b8 :: b9 :: b10 :: b11 :: b12 :: b13 :: b14 :: b15 :: rest)
        false added removed
    else if addMode then
      parseDiffEntries rest addMode
        (added ++ [[b0, b1, b2, b3, b4, b5, b6, b7, b8, b9, b10, b11, b12, b13, b14, b15]])
        removed
    else
      parseDiffEntries rest addMode added
        (removed ++ [[b0, b1, b2, b3, b4, b5, b6, b7, b8, b9, b10, b11, b12, b13, b14, b15]])
  | _, _, added, removed => (added, removed)

/-- Decoding of a stored diff value, as in `Data::get_statediff`: the first 8
bytes are the parent handle (`0` meaning no parent), the rest is parsed by the
sentinel-separated loop.  A value shorter than 8 bytes makes the Rust code
panic on the slice; this is modelled as `none`. -/
def parseStatediff (value : List Nat) : Option StateDiff :=
  if 8 ≤ value.length then
    let parentRaw := fromBytesBE (value.take 8)
    let parent := if parentRaw ≠ 0 then some parentRaw else none
    let sections := parseDiffEntries (value.drop 8) true [] []
    some ⟨parent, sections.1, sections.2⟩
  else none

/-- `Data::get_statediff`: look the handle up and decode; a missing handle is
an error (`Error::bad_database`), modelled as `none`. -/
def getStatediff (db : Nat → Option (List Nat)) (hsh : Nat) : Option StateDiff :=
  (db hsh).bind parseStatediff

/-! ## Visibility resolver (`service/rooms/state_accessor/mod.rs`)

User ids, server names, room ids, event ids and shortstatehash handles are
all modelled as `Nat`.  The `state_get` reads (a key-value lookup followed by
a serde deserialization) are modelled as oracle fields of `StateDb`:
`none` is "no such state event", `some (.error ())` is a present event whose
content fails to deserialize, `some (.ok v)` a successful parse. -/

/-- ruma `MembershipState` (the variants the resolver consults). -/
inductive MembershipState
  | join
  | invite
  | knock
  | leave
  | ban
deriving DecidableEq

/-- ruma `HistoryVisibility`; `custom` stands for the non-exhaustive custom
variants that fall into the `_ =>` arm of the Rust matches. -/
inductive HistoryVisibility
  | invited
  | joined
  | shared
  | worldReadable
  | custom
deriving DecidableEq

/-- The data the visibility resolver reads: the event→snapshot lookup
(`pdu_shortstatehash`), the two `state_get` families it performs
(history visibility at a snapshot, membership of a user at a snapshot), and
the `state_cache` service (current membership). -/
structure StateDb where
  /-- `pdu_shortstatehash(event_id)`: the snapshot handle of an event. -/
  pduShortstatehash : Nat → Option Nat
  /-- `state_get(h, RoomHistoryVisibility, "")` followed by the serde parse. -/
  stateGetHistoryVisibility : Nat → Option (Except Unit HistoryVisibility)
  /-- `state_get(h, RoomMember, user)` followed by the serde parse. -/
  stateGetMember : Nat → Nat → Option (Except Unit MembershipState)
  /-- `state_cache.is_joined(user, room)`: current membership. -/
  isJoined : Nat → Nat → Bool
  /-- `state_cache.room_members(room)` with the `filter_map(Result::ok)`
  already applied: the current members of the room. -/
  roomMembers : Nat → List Nat
  /-- `user_id.server_name()`. -/
  serverOf : Nat → Nat

/-- `Service::user_membership`: membership for the user in the given
snapshot; no member event means `Leave`, a malformed member event is a
`bad_database` error. -/
def userMembership (db : StateDb) (hsh user : Nat) : Except Unit MembershipState :=
  match db.stateGetMember hsh user with
  | none => .ok .leave
  | some (.ok m) => .ok m
  | some (.error _) => .error ()

/-- `Service::user_was_joined`: `is_ok_and(|s| s == Join)`. -/
def userWasJoined (db : StateDb) (hsh user : Nat) : Bool :=
  match userMembership db hsh user with
  | .ok .join => true
  | _ => false

/-- `Service::user_was_invited`: `is_ok_and(|s| s == Join || s == Invite)`. -/
def userWasInvited (db : StateDb) (hsh user : Nat) : Bool :=
  match userMembership db hsh user with
  | .ok .join => true
  | .ok .invite => true
  | _ => false

/-- The `history_visibility` value effective at a snapshot, as both
`can_see` functions compute it: missing event or malformed content default
to `Shared` (`map_or(Ok(Shared), …).unwrap_or(Shared)`). -/
def historyVisibilityAt (db : StateDb) (hsh : Nat) : HistoryVisibility :=
  match db.stateGetHistoryVisibility hsh with
  | none => .shared
  | some (.ok v) => v
  | some (.error _) => .shared

/-- The visibility caches (`LruCache<(actor, u64), bool>`), modelled as a
map; capacity-based LRU eviction does not change lookup results and is not
modelled. -/
abbrev VisCache := Nat × Nat → Option Bool

/-- `LruCache::insert`. -/
def cacheInsert (c : VisCache) (k : Nat × Nat) (v : Bool) : VisCache :=
  fun k' => if k' = k then some v else c k'

/-- Eviction of one cache entry (what LRU capacity eviction does to a key). -/
def cacheErase (c : VisCache) (k : Nat × Nat) : VisCache :=
  fun k' => if k' = k then none else c k'

/-- The uncached visibility computation of `Service::server_can_see_event`
for a snapshot handle: the `match history_visibility` over the current
members of the origin server. -/
def serverVisibilityValue (db : StateDb) (origin roomId hsh : Nat) : Bool :=
  let currentServerMembers :=
    (db.roomMembers roomId).filter (fun m => db.serverOf m == origin)
  match historyVisibilityAt db hsh with
  | .worldReadable => true
  | .shared => true
  | .invited => currentServerMembers.any (fun m => userWasInvited db hsh m)
  | .joined => currentServerMembers.any (fun m => userWasJoined db hsh m)
  | .custom => false

/-- `Service::server_can_see_event`: returns the decision together with the
updated `server_visibility_cache`. -/
def serverCanSeeEvent (db : StateDb) (cache : VisCache) (origin roomId eventId : Nat) :
    Bool × VisCache :=
  match db.pduShortstatehash eventId with
  | none => (true, cache)
  | some hsh =>
    match cache (origin, hsh) with
    | some v => (v, cache)
    | none =>
      let vis := serverVisibilityValue db origin roomId hsh
      (vis, cacheInsert cache (origin, hsh) vis)

/-- The uncached visibility computation of `Service::user_can_see_event` for
a snapshot handle. -/
def userVisibilityValue (db : StateDb) (userId roomId hsh : Nat) : Bool :=
  let currentlyMember := db.isJoined userId roomId
  match historyVisibilityAt db hsh with
  | .worldReadable => true
  | .shared => currentlyMember
  | .invited => userWasInvited db hsh userId
  | .joined => userWasJoined db hsh userId
  | .custom => false

/-- `Service::user_can_see_event`: returns the decision together with the
updated `user_visibility_cache`. -/
def userCanSeeEvent (db : StateDb) (cache : VisCache) (userId roomId eventId : Nat) :
    Bool × VisCache :=
  match db.pduShortstatehash eventId with
  | none => (true, cache)
  | some hsh =>
    match cache (userId, hsh) with
    | some v => (v, cache)
    | none =>
      let vis := userVisibilityValue db userId roomId hsh
      (vis, cacheInsert cache (userId, hsh) vis)

/-- The shared shape of both `can_see` functions: event→snapshot lookup,
cache consultation keyed by (actor, snapshot handle), recomputation and
cache fill on a miss.  `userCanSeeEvent` and `serverCanSeeEvent` are
definitionally instances of this. -/
def cachedDecision (lookup : Option Nat) (actor : Nat) (compute : Nat → Bool)
    (cache : VisCache) : Bool × VisCache :=
  match lookup with
  | none => (true, cache)
  | some hsh =>
    match cache (actor, hsh) with
    | some v => (v, cache)
    | none => (compute hsh, cacheInsert cache (actor, hsh) (compute hsh))

/-! ## String helpers for the destination resolver

Rust `&str` values are modelled as `List Char`. -/

/-- `str::find(':')`: index of the first colon. -/
def findColon : List Char → Option Nat
  | [] => none
  | c :: cs => if c = ':' then some 0 else (findColon cs).map (· + 1)

/-- Decimal digits of `n`, most significant first (`[]` for `0`); the fuel
argument makes the recursion structural and hence kernel-reducible. -/
def natDigitsAux : Nat → Nat → List Nat
  | 0, _ => []
  | fuel + 1, n => if n = 0 then [] else natDigitsAux fuel (n / 10) ++ [n % 10]

/-- One decimal digit as a character. -/
def digitChar (d : Nat) : Char :=
  match d with
  | 0 => '0' | 1 => '1' | 2 => '2' | 3 => '3' | 4 => '4'
  | 5 => '5' | 6 => '6' | 7 => '7' | 8 => '8' | _ => '9'

/-- The decimal rendering of `n`, as Rust's `format!("{n}")`. -/
def natChars (n : Nat) : List Char :=
  if n = 0 then ['0'] else (natDigitsAux n n).map digitChar

/-- Rust `str::parse::<u16>()`: an optional leading `+`, then one or more
ASCII digits whose value fits in 16 bits. -/
def parseU16 (s : List Char) : Option Nat :=
  let t := if s.head? = some '+' then s.tail else s
  if t ≠ [] ∧ t.all (fun c => c.isDigit) then
    let n := t.foldl (fun a c => a * 10 + (c.toNat - 48)) 0
    if n ≤ 65535 then some n else none
  else none

/-- `str::trim_end_matches('.')`: drop every trailing dot. -/
def trimDots (s : List Char) : List Char :=
  (s.reverse.dropWhile (fun c => c == '.')).reverse

/-! ## Destination resolver (`service/sending/send.rs`)

IP addresses are opaque (`Nat`); parsing and rendering of IP literals are
std-library externals supplied as oracles in `ResolveEnv`, as are the DNS
resolver, the HTTP client and ruma's server-name validation. -/

/-- hickory `ResolveErrorKind`, split as `handle_resolve_error` splits it:
`Io` against everything else. -/
inductive ResolveErrorKind
  | io
  | noRecordsFound
  | timeout
  | message
deriving DecidableEq

/-- The error values these functions can surface to their callers. -/
inductive SendError
  /-- `handle_resolve_error` on an `Io` resolver error (`Error::Error`). -/
  | dnsIo
  /-- the `?` on `response.text().await` in `request_well_known`. -/
  | httpBody
deriving DecidableEq

/-- `FedDest` from `send.rs`: a literal socket address, or a hostname plus
port complement (`""` or `":port"`). -/
inductive FedDest
  | literal (ip : Nat) (port : Nat)
  | named (host : List Char) (port : List Char)
deriving DecidableEq

/-- The external services `send.rs` uses, as oracles. -/
structure ResolveEnv where
  /-- `str::parse::<SocketAddr>()`. -/
  parseSocketAddr : List Char → Option (Nat × Nat)
  /-- `str::parse::<IpAddr>()`. -/
  parseIpAddr : List Char → Option Nat
  /-- `IpAddr`'s `Display`. -/
  ipToString : Nat → List Char
  /-- `SocketAddr`'s `Display`. -/
  sockAddrToString : Nat × Nat → List Char
  /-- `dns_resolver().lookup_ip(hostname)`, the resolved addresses. -/
  dnsLookupIp : List Char → Except ResolveErrorKind (List Nat)
  /-- `dns_resolver().srv_lookup(name)`: the SRV records as
  (target, port) pairs, in order. -/
  srvLookup : List Char → Except ResolveErrorKind (List (List Char × Nat))
  /-- The well-known HTTPS fetch for a destination: an error models a failed
  `send()`; on success the status code together with the outcome of reading
  the body (`response.text()` can itself fail). -/
  httpGetWellKnown : List Char → Except Unit (Nat × Except Unit (List Char))
  /-- `serde_json::from_str(text).unwrap_or_default()` followed by
  `body.get("m.server").…as_str().unwrap_or_default()`: the extracted
  `m.server` string, `""` whenever the body is not valid JSON or the field
  is missing or not a string. -/
  mServer : List Char → List Char
  /-- `ruma_identifiers_validation::server_name::validate(_).is_ok()`. -/
  validServerName : List Char → Bool

/-- The process-lifetime override cache
(`resolver.overrides`: hostname → (resolved IPs, port)). -/
abbrev Overrides := List Char → Option (List Nat × Nat)

/-- `HashMap::insert` on the override cache. -/
def ovInsert (ov : Overrides) (k : List Char) (v : List Nat × Nat) : Overrides :=
  fun k' => if k' = k then some v else ov k'

/-- `handle_resolve_error`: an `Io` resolver error is surfaced as an error,
every other kind is non-fatal. -/
def handleResolveError (k : ResolveErrorKind) : Except SendError Unit :=
  match k with
  | .io => .error .dnsIo
  | _ => .ok ()

/-- `query_and_cache_override`: resolve `hostname`'s IPs and cache them
under `overname` with the chosen port; resolver errors go through
`handle_resolve_error` (non-fatal kinds leave the cache untouched). -/
def queryAndCacheOverride (env : ResolveEnv) (ov : Overrides)
    (overname hostname : List Char) (port : Nat) : Except SendError Overrides :=
  match env.dnsLookupIp hostname with
  | .error k =>
    match handleResolveError k with
    | .error e => .error e
    | .ok _ => .ok ov
  | .ok ips => .ok (ovInsert ov overname (ips, port))

/-- `handle_successful_srv`: the first SRV record as a `FedDest`, target
trimmed of trailing dots, port rendered as `":{port}"`. -/
def handleSuccessfulSrv (records : List (List Char × Nat)) : Option FedDest :=
  records.head?.map (fun r => FedDest.named (trimDots r.1) (':' :: natChars r.2))

/-- The first SRV name queried (`_matrix-fed._tcp.{hostname}.`, trailing
dots trimmed again inside `lookup_srv`). -/
def srvName1 (hostname : List Char) : List Char :=
  trimDots ("_matrix-fed._tcp.".toList ++ hostname ++ ['.'])

/-- The legacy SRV name queried second (`_matrix._tcp.{hostname}.`). -/
def srvName2 (hostname : List Char) : List Char :=
  trimDots ("_matrix._tcp.".toList ++ hostname ++ ['.'])

/-- `query_srv_record`: try the federation SRV name then the legacy one; a
successful lookup returns its first record (even when there is none), a
non-fatal error falls through, and both failing non-fatally yields
`Ok(None)`. -/
def querySrvRecord (env : ResolveEnv) (hostname : List Char) :
    Except SendError (Option FedDest) :=
  match env.srvLookup (srvName1 hostname) with
  | .ok records => .ok (handleSuccessfulSrv records)
  | .error k =>
    match handleResolveError k with
    | .error e => .error e
    | .ok _ =>
      match env.srvLookup (srvName2 hostname) with
      | .ok records => .ok (handleSuccessfulSrv records)
      | .error k2 =>
        match handleResolveError k2 with
        | .error e => .error e
        | .ok _ => .ok none

/-- The preliminary step of `request_well_known`: if the override cache has
no entry for the destination, resolve and cache it on port 8448 (this can
surface a fatal I/O resolver error). -/
def wkPrefetch (env : ResolveEnv) (ov : Overrides) (dest : List Char) :
    Except SendError Overrides :=
  if (ov dest).isSome then .ok ov
  else queryAndCacheOverride env ov dest dest 8448

/-- `request_well_known`: fetch `https://{dest}/.well-known/matrix/server`;
a failed send, a non-2xx status, a body of 12288 bytes or more, or a missing
or invalid `m.server` value all yield `Ok(None)`; a failure while reading
the body of a successful response propagates (`response.text().await?`), as
does a fatal error in the preliminary DNS step. -/
def requestWellKnown (env : ResolveEnv) (ov : Overrides) (dest : List Char) :
    Except SendError (Option (List Char) × Overrides) :=
  match wkPrefetch env ov dest with
  | .error e => .error e
  | .ok ov1 =>
    match env.httpGetWellKnown dest with
    | .error _ => .ok (none, ov1)
    | .ok (status, bodyRes) =>
      if ¬ (200 ≤ status ∧ status < 300) then .ok (none, ov1)
      else
        match bodyRes with
        | .error _ => .error .httpBody
        | .ok text =>
          if 12288 ≤ text.length then .ok (none, ov1)
          else
            let m := env.mServer text
            if env.validServerName m then .ok (some m, ov1)
            else .ok (none, ov1)

/-- `get_ip_with_port`: an IP literal with or without explicit port, default
8448. -/
def getIpWithPort (env : ResolveEnv) (s : List Char) : Option FedDest :=
  match env.parseSocketAddr s with
  | some addr => some (.literal addr.1 addr.2)
  | none =>
    match env.parseIpAddr s with
    | some ip => some (.literal ip 8448)
    | none => none

/-- `add_port_to_hostname`: split at the first colon, or append `":8448"`. -/
def addPortToHostname (s : List Char) : FedDest :=
  match findColon s with
  | none => .named s ":8448".toList
  | some pos => .named (s.take pos) (s.drop pos)

/-- `FedDest::into_uri_string`. -/
def fedDestUriString (env : ResolveEnv) : FedDest → List Char
  | .literal ip port => env.sockAddrToString (ip, port)
  | .named host port => host ++ port

/-- `FedDest::hostname`. -/
def fedDestHostname (env : ResolveEnv) : FedDest → List Char
  | .literal ip _ => env.ipToString ip
  | .named host _ => host

/-- `FedDest::port`: for a named destination, `port[1..].parse::<u16>().ok()`. -/
def fedDestPort : FedDest → Option Nat
  | .literal _ port => some port
  | .named _ port => parseU16 (port.drop 1)

/-- The final conversion of the tracked `hostname` string into the host
header (`into_uri_string` of the `FedDest` built at the end of
`resolve_actual_destination`). -/
def hostnameToHeader (env : ResolveEnv) (hostname : List Char) : List Char :=
  match env.parseSocketAddr hostname with
  | some addr => fedDestUriString env (.literal addr.1 addr.2)
  | none =>
    match env.parseIpAddr hostname with
    | some ip => fedDestUriString env (.named (env.ipToString ip) ":8448".toList)
    | none =>
      match findColon hostname with
      | some pos =>
        fedDestUriString env (.named (hostname.take pos) (hostname.drop pos))
      | none => fedDestUriString env (.named hostname ":8448".toList)

/-- `resolve_actual_destination`: the discovery algorithm.  Returns the
actual destination, the host-header string, and the updated override cache.
The numbered comments match the ones in the Rust source. -/
def resolveActualDestination (env : ResolveEnv) (ov : Overrides)
    (destStr : List Char) :
    Except SendError (FedDest × List Char × Overrides) :=
  let afterBranches : Except SendError (FedDest × List Char × Overrides) :=
    match getIpWithPort env destStr with
    | some hostPort =>
      -- 1: IP literal with provided or default port
      .ok (hostPort, destStr, ov)
    | none =>
      match findColon destStr with
      | some pos =>
        -- 2: hostname with included port
        let host := destStr.take pos
        let port := destStr.drop pos
        match queryAndCacheOverride env ov host host ((parseU16 port).getD 8448) with
        | .error e => .error e
        | .ok ov1 => .ok (.named host port, destStr, ov1)
      | none =>
        match requestWellKnown env ov destStr with
        | .error e => .error e
        | .ok (some delegated, ov1) =>
          -- 3: a .well-known file is available
          let hostname := fedDestUriString env (addPortToHostname delegated)
          match getIpWithPort env delegated with
          | some hostPort => .ok (hostPort, hostname, ov1)
          | none =>
            match findColon delegated with
            | some pos =>
              -- 3.2: hostname with port in .well-known file
              let host := delegated.take pos
              let port := delegated.drop pos
              match queryAndCacheOverride env ov1 host host
                  ((parseU16 port).getD 8448) with
              | .error e => .error e
              | .ok ov2 => .ok (.named host port, hostname, ov2)
            | none =>
              match querySrvRecord env delegated with
              | .error e => .error e
              | .ok (some hostnameOverride) =>
                -- 3.3: SRV lookup successful
                let forcePort := fedDestPort hostnameOverride
                match queryAndCacheOverride env ov1 delegated
                    (fedDestHostname env hostnameOverride)
                    (forcePort.getD 8448) with
                | .error e => .error e
                | .ok ov2 =>
                  match forcePort with
                  | some p => .ok (.named delegated (':' :: natChars p), hostname, ov2)
                  | none => .ok (addPortToHostname delegated, hostname, ov2)
              | .ok none =>
                -- 3.4: no SRV records, just use the hostname from .well-known
                match queryAndCacheOverride env ov1 delegated delegated 8448 with
                | .error e => .error e
                | .ok ov2 => .ok (addPortToHostname delegated, hostname, ov2)
        | .ok (none, ov1) =>
          match querySrvRecord env destStr with
          | .error e => .error e
          | .ok (some hostnameOverride) =>
            -- 4: no .well-known; SRV record found
            let forcePort := fedDestPort hostnameOverride
            match queryAndCacheOverride env ov1 destStr
                (fedDestHostname env hostnameOverride) (forcePort.getD 8448) with
            | .error e => .error e
            | .ok ov2 =>
              match forcePort with
              | some p => .ok (.named destStr (':' :: natChars p), destStr, ov2)
              | none => .ok (addPortToHostname destStr, destStr, ov2)
          | .ok none =>
            -- 5: no SRV record found either
            match queryAndCacheOverride env ov1 destStr destStr 8448 with
            | .error e => .error e
            | .ok ov2 => .ok (addPortToHostname destStr, destStr, ov2)
  match afterBranches with
  | .error e => .error e
  | .ok (actual, hostname, ovF) => .ok (actual, hostnameToHeader env hostname, ovF)

/-! ## Inbound transaction route (`api/server/send.rs`)

PDUs and EDUs are opaque (`Nat`); the bodies of `handle_pdus` and
`handle_edus` (PDU parsing, signature fetching, event handling) call external
services and are supplied as oracle state transformers — the claim under
study concerns only the guards that run before them. -/

/-- The error kinds `send_transaction_message_route` can produce. -/
inductive ApiError
  | forbidden
  | other
deriving DecidableEq

/-- The parts of `send_transaction_message::v1::Request` the guards read. -/
structure TxnBody where
  /-- `body.body.origin`: the origin claimed inside the transaction. -/
  origin : Nat
  pdus : List Nat
  edus : List Nat
deriving DecidableEq

/-- Oracles for the PDU/EDU processing that follows the guards; each maps a
server state to a result and a successor state. -/
structure TxnEnv (State : Type) where
  handlePdus : State → Nat → TxnBody → Except ApiError (List (Nat × Option ApiError)) × State
  handleEdus : State → Nat → TxnBody → Except ApiError Unit × State

/-- `send_transaction_message_route`: the authenticated origin must match
the body's origin, at most 50 PDUs and at most 100 EDUs are accepted, and
only then are PDUs and EDUs processed; every rejection leaves the state as
it was. -/
def sendTransactionMessageRoute {State : Type} (env : TxnEnv State) (st : State)
    (authedOrigin : Nat) (body : TxnBody) :
    Except ApiError (List (Nat × Option ApiError)) × State :=
  if authedOrigin ≠ body.origin then (.error .forbidden, st)
  else if body.pdus.length > 50 then (.error .forbidden, st)
  else if body.edus.length > 100 then (.error .forbidden, st)
  else
    match env.handlePdus st authedOrigin body with
    | (.error e, st1) => (.error e, st1)
    | (.ok resolved, st1) =>
      match env.handleEdus st1 authedOrigin body with
      | (.error e, st2) => (.error e, st2)
      | (.ok _, st2) => (.ok resolved, st2)

/-! ## Outbound sending queue (`service/sending/mod.rs`)

Server names, user ids, appservice ids, pushkeys and pdu ids are byte
strings (`List Nat`).  Each operation is modelled as the list of effects it
performs, in order: durable queue writes (`Data::queue_requests`) and
channel dispatches (`Service::dispatch`). -/

/-- `SendingEvent`. -/
inductive SendingEvent
  | pdu (pduId : List Nat)
  | edu (serialized : List Nat)
  | flush
deriving DecidableEq

/-- `Destination`. -/
inductive Destination
  | appservice (id : List Nat)
  | push (user : List Nat) (pushkey : List Nat)
  | normal (server : List Nat)
deriving DecidableEq

/-- `Destination::get_prefix`: the storage-key prefix of a destination. -/
def destKeyBytes : Destination → List Nat
  | .normal server => server ++ [0xFF]
  | .appservice id => 0x2B :: id ++ [0xFF]
  | .push user pushkey => 0x24 :: user ++ [0xFF] ++ pushkey ++ [0xFF]

/-- `Msg`, the value sent over the in-memory channel by
`Service::dispatch`. -/
structure Msg where
  dest : Destination
  event : SendingEvent
  queueId : List Nat
deriving DecidableEq

/-- One observable step of a sending operation: a durable write of a queued
request, or an in-memory channel dispatch. -/
inductive Effect
  | dbQueue (dest : Destination) (event : SendingEvent) (queueId : List Nat)
  | channelSend (msg : Msg)
deriving DecidableEq

/-- Modelled from the spec: `Data::queue_requests` of `service/sending/data.rs`
is not among the provided sources; per the spec ("Persists
(destination-prefix + queue-id) → payload durably *before* returning" with a
store-assigned monotonically increasing id) it writes each request under its
destination prefix plus a fresh monotone counter value and returns the
assigned keys.  `counter` is the store's id counter. -/
def queueRequests (counter : Nat) (requests : List (Destination × SendingEvent)) :
    List (List Nat) × List Effect :=
  let keyed := requests.enum.map
    (fun pr => (pr.2.1, pr.2.2, destKeyBytes pr.2.1 ++ toBytesBE 8 (counter + pr.1)))
  (keyed.map (fun r => r.2.2), keyed.map (fun r => Effect.dbQueue r.1 r.2.1 r.2.2))

/-- `Service::send_pdu_push`: persist one `Pdu` request for a push
destination, then dispatch it. -/
def sendPduPush (counter : Nat) (pduId user pushkey : List Nat) : List Effect :=
  let dest := Destination.push user pushkey
  let event := SendingEvent.pdu pduId
  let queued := queueRequests counter [(dest, event)]
  queued.2 ++ [.channelSend ⟨dest, event, queued.1.headD []⟩]

/-- `Service::send_pdu_appservice`. -/
def sendPduAppservice (counter : Nat) (appserviceId pduId : List Nat) : List Effect :=
  let dest := Destination.appservice appserviceId
  let event := SendingEvent.pdu pduId
  let queued := queueRequests counter [(dest, event)]
  queued.2 ++ [.channelSend ⟨dest, event, queued.1.headD []⟩]

/-- `Service::send_pdu_servers`: persist one request per server in a single
batched `queue_requests` call, then dispatch them all. -/
def sendPduServers (counter : Nat) (servers : List (List Nat)) (pduId : List Nat) :
    List Effect :=
  let requests := servers.map (fun s => (Destination.normal s, SendingEvent.pdu pduId))
  let queued := queueRequests counter requests
  queued.2 ++ (requests.zip queued.1).map
    (fun r => .channelSend ⟨r.1.1, r.1.2, r.2⟩)

/-- `Service::send_edu_server`. -/
def sendEduServer (counter : Nat) (server serialized : List Nat) : List Effect :=
  let dest := Destination.normal server
  let event := SendingEvent.edu serialized
  let queued := queueRequests counter [(dest, event)]
  queued.2 ++ [.channelSend ⟨dest, event, queued.1.headD []⟩]

/-- `Service::send_edu_servers`. -/
def sendEduServers (counter : Nat) (servers : List (List Nat)) (serialized : List Nat) :
    List Effect :=
  let requests := servers.map (fun s => (Destination.normal s, SendingEvent.edu serialized))
  let queued := queueRequests counter requests
  queued.2 ++ (requests.zip queued.1).map
    (fun r => .channelSend ⟨r.1.1, r.1.2, r.2⟩)

/-- `Service::flush_servers`: dispatch an in-memory `Flush` message with an
empty queue id to each destination; nothing is written durably. -/
def flushServers (servers : List (List Nat)) : List Effect :=
  servers.map (fun s => .channelSend ⟨.normal s, .flush, []⟩)

/-- `Service::flush_room`: `flush_servers` over the room's remote servers
(the `room_servers` read is external; the server list is its result). -/
def flushRoom (roomServers : List (List Nat)) : List Effect :=
  flushServers roomServers

/-- The durable outbound queue reached by folding the durable writes of a
trace over an initial queue; channel dispatches do not touch it. -/
def applyEffects (q : List (Destination × SendingEvent × List Nat)) :
    List Effect → List (Destination × SendingEvent × List Nat)
  | [] => q
  | .dbQueue d e k :: rest => applyEffects (q ++ [(d, e, k)]) rest
  | .channelSend _ :: rest => applyEffects q rest

/-- The durable writes of a trace, in order. -/
def durableWrites (effects : List Effect) : List (Destination × SendingEvent × List Nat) :=
  effects.filterMap (fun e =>
    match e with
    | .dbQueue d ev k => some (d, ev, k)
    | .channelSend _ => none)

/-- A trace whose durable writes all precede its channel dispatches. -/
def writesBeforeDispatches (effects : List Effect) : Prop :=
  ∃ ws ds, effects = ws ++ ds ∧
    (∀ e ∈ ws, ∃ d ev k, e = Effect.dbQueue d ev k) ∧
    (∀ e ∈ ds, ∃ m, e = Effect.channelSend m)

/-! ## Concrete oracle environments used by counterexamples and witnesses -/

/-- An environment in which the well-known fetch succeeds with a 2xx status
but reading the response body fails. -/
def wkBodyFailEnv : ResolveEnv :=
  ⟨fun _ => none, fun _ => none, fun _ => [], fun _ => [],
    fun _ => .ok [1], fun _ => .error .noRecordsFound,
    fun _ => .ok (200, .error ()), fun _ => [], fun _ => false⟩

/-- An environment in which the well-known fetch yields a 404. -/
def wkNotFoundEnv : ResolveEnv :=
  ⟨fun _ => none, fun _ => none, fun _ => [], fun _ => [],
    fun _ => .ok [1], fun _ => .error .noRecordsFound,
    fun _ => .ok (404, .ok []), fun _ => [], fun _ => false⟩

/-- An environment in which every resolver lookup fails with a non-I/O
error. -/
def srvErrEnv : ResolveEnv :=
  ⟨fun _ => none, fun _ => none, fun _ => [], fun _ => [],
    fun _ => .error .noRecordsFound, fun _ => .error .noRecordsFound,
    fun _ => .error (), fun _ => [], fun _ => false⟩

/-- An environment realising the delegated-hostname-and-SRV scenario: the
well-known fetch for server `a` delegates to `b`, the federation SRV lookup
for `b` yields target `c` on port 9001, and DNS resolves `a` to `[1]` and
`c` to `[2]`. -/
def delegSrvEnv : ResolveEnv :=
  ⟨fun _ => none, fun _ => none, fun _ => [], fun _ => [],
    fun s => if s = "a".toList then .ok [1]
      else if s = "c".toList then .ok [2]
      else .error .noRecordsFound,
    fun s => if s = "_matrix-fed._tcp.b".toList then .ok [("c".toList, 9001)]
      else .error .noRecordsFound,
    fun _ => .ok (200, .ok "body".toList),
    fun _ => "b".toList,
    fun s => decide (s = "b".toList)⟩

/-! # Theorems -/

/-! ## Byte-encoding lemmas -/

theorem length_toBytesBE (k : Nat) : ∀ n, (toBytesBE k n).length = k := by
  induction k with
  | zero => intro n; rfl
  | succ k ih => intro n; simp [toBytesBE, ih]

theorem fromBytesBE_append_singleton (l : List Nat) (x : Nat) :
    fromBytesBE (l ++ [x]) = fromBytesBE l * 256 + x := by
  simp [fromBytesBE, List.foldl_append]

theorem fromBytesBE_toBytesBE (k : Nat) :
    ∀ n, n < 256 ^ k → fromBytesBE (toBytesBE k n) = n := by
  induction k with
  | zero =>
    intro n h
    simp only [pow_zero, Nat.lt_one_iff] at h
    simp [h, toBytesBE, fromBytesBE]
  | succ k ih =>
    intro n h
    have hdiv : n / 256 < 256 ^ k := by
      rw [Nat.div_lt_iff_lt_mul (by norm_num)]
      calc n < 256 ^ (k + 1) := h
        _ = 256 ^ k * 256 := by ring
    simp only [toBytesBE, fromBytesBE_append_singleton, ih (n / 256) hdiv]
    omega

/-! ## C1: state-diff round-trip -/

theorem exists_sixteen (e : List Nat) (he : e.length = 16) :
    ∃ b0 b1 b2 b3 b4 b5 b6 b7 b8 b9 b10 b11 b12 b13 b14 b15,
      e = [b0, b1, b2, b3, b4, b5, b6, b7, b8, b9, b10, b11, b12, b13, b14, b15] := by
  rcases e with _ | ⟨b0, e⟩; · simp at he
  rcases e with _ | ⟨b1, e⟩; · simp at he
  rcases e with _ | ⟨b2, e⟩; · simp at he
  rcases e with _ | ⟨b3, e⟩; · simp at he
  rcases e with _ | ⟨b4, e⟩; · simp at he
  rcases e with _ | ⟨b5, e⟩; · simp at he
  rcases e with _ | ⟨b6, e⟩; · simp at he
  rcases e with _ | ⟨b7, e⟩; · simp at he
  rcases e with _ | ⟨b8, e⟩; · simp at he
  rcases e with _ | ⟨b9, e⟩; · simp at he
  rcases e with _ | ⟨b10, e⟩; · simp at he
  rcases e with _ | ⟨b11, e⟩; · simp at he
  rcases e with _ | ⟨b12, e⟩; · simp at he
  rcases e with _ | ⟨b13, e⟩; · simp at he
  rcases e with _ | ⟨b14, e⟩; · simp at he
  rcases e with _ | ⟨b15, e⟩; · simp at he
  rcases e with _ | ⟨b16, e⟩
  · exact ⟨b0, b1, b2, b3, b4, b5, b6, b7, b8, b9, b10, b11, b12, b13, b14, b15, rfl⟩
  · simp at he

theorem parseDiffEntries_nil (addMode : Bool) (accA accR : List (List Nat)) :
    parseDiffEntries [] addMode accA accR = (accA, accR) := rfl

theorem parseDiffEntries_flatten_added (added : List (List Nat)) :
    ∀ tail accA accR,
      (∀ e ∈ added, e.length = 16 ∧ e.take 8 ≠ zeros8) →
      parseDiffEntries (added.flatten ++ tail) true accA accR =
        parseDiffEntries tail true (accA ++ added) accR := by
  induction added with
  | nil => intro tail accA accR _; simp
  | cons e ad ih =>
    intro tail accA accR hall
    obtain ⟨he, hz⟩ := hall e (by simp)
    obtain ⟨b0, b1, b2, b3, b4, b5, b6, b7, b8, b9, b10, b11, b12, b13, b14, b15, rfl⟩ :=
      exists_sixteen e he
    rw [show ([b0, b1, b2, b3, b4, b5, b6, b7, b8, b9, b10, b11, b12, b13, b14,
      b15] : List Nat).take 8 = [b0, b1, b2, b3, b4, b5, b6, b7] from rfl] at hz
    simp only [List.flatten_cons, List.append_assoc, List.cons_append, List.nil_append]
    rw [parseDiffEntries]
    simp only [true_and, if_neg hz, if_pos trivial]
    rw [ih tail _ _ (fun x hx => hall x (by simp [hx]))]
    simp

theorem parseDiffEntries_flatten_removed (removed : List (List Nat)) :
    ∀ accA accR,
      (∀ e ∈ removed, e.length = 16) →
      parseDiffEntries removed.flatten false accA accR = (accA, accR ++ removed) := by
  induction removed with
  | nil => intro accA accR _; simp [parseDiffEntries_nil]
  | cons e rem ih =>
    intro accA accR hall
    obtain ⟨b0, b1, b2, b3, b4, b5, b6, b7, b8, b9, b10, b11, b12, b13, b14, b15, rfl⟩ :=
      exists_sixteen e (hall e (by simp))
    simp only [List.flatten_cons, List.append_assoc, List.cons_append, List.nil_append]
    rw [parseDiffEntries]
    rw [if_neg (by simp), if_neg (by simp)]
    rw [ih _ _ (fun x hx => hall x (by simp [hx]))]
    simp

theorem parseDiffEntries_sentinel (c0 c1 c2 c3 c4 c5 c6 c7 : Nat) (rest : List Nat)
    (accA accR : List (List Nat)) :
    parseDiffEntries (0 :: 0 :: 0 :: 0 :: 0 :: 0 :: 0 :: 0 ::
        c0 :: c1 :: c2 :: c3 :: c4 :: c5 :: c6 :: c7 :: rest) true accA accR =
      parseDiffEntries (c0 :: c1 :: c2 :: c3 :: c4 :: c5 :: c6 :: c7 :: rest)
        false accA accR := by
  rw [parseDiffEntries]
  rw [if_pos ⟨rfl, rfl⟩]

theorem parseDiffEntries_sections (added removed : List (List Nat))
    (ha : ∀ e ∈ added, e.length = 16 ∧ e.take 8 ≠ zeros8)
    (hr : ∀ e ∈ removed, e.length = 16) :
    parseDiffEntries
        (added.flatten ++ if removed.isEmpty then [] else zeros8 ++ removed.flatten)
        true [] [] = (added, removed) := by
  cases removed with
  | nil =>
    rw [if_pos (show ([] : List (List Nat)).isEmpty = true from rfl)]
    rw [parseDiffEntries_flatten_added added [] [] [] ha, parseDiffEntries_nil]
    simp
  | cons e rem =>
    rw [if_neg (by simp)]
    rw [parseDiffEntries_flatten_added added _ [] [] ha]
    obtain ⟨b0, b1, b2, b3, b4, b5, b6, b7, b8, b9, b10, b11, b12, b13, b14, b15, rfl⟩ :=
      exists_sixteen e (hr e (by simp))
    show parseDiffEntries
        (0 :: 0 :: 0 :: 0 :: 0 :: 0 :: 0 :: 0 ::
          b0 :: b1 :: b2 :: b3 :: b4 :: b5 :: b6 :: b7 ::
          (b8 :: b9 :: b10 :: b11 :: b12 :: b13 :: b14 :: b15 :: rem.flatten))
        true ([] ++ added) [] = _
    rw [parseDiffEntries_sentinel]
    show parseDiffEntries
        (([b0, b1, b2, b3, b4, b5, b6, b7, b8, b9, b10, b11, b12, b13, b14, b15] ::
          rem).flatten) false ([] ++ added) [] = _
    rw [parseDiffEntries_flatten_removed _ _ _ (fun x hx => hr x hx)]
    simp

/-- C1.  State diff encode/decode round-trip: for every `StateDiff` whose
parent is not `Some(0)` (and fits in a `u64`) and all of whose added and
removed entries are 16 bytes beginning with a nonzero 8-byte state-key
handle, `get_statediff(h)` after `save_statediff(h, diff)` returns a
`StateDiff` with the same parent, the same added entries and the same
removed entries — the sentinel-separated layout is self-delimiting. -/
theorem statediff_save_get_roundtrip
    (db : Nat → Option (List Nat)) (hsh : Nat) (d : StateDiff)
    (hp : ∀ p, d.parent = some p → p ≠ 0 ∧ p < 2 ^ 64)
    (ha : ∀ e ∈ d.added, e.length = 16 ∧ e.take 8 ≠ zeros8)
    (hr : ∀ e ∈ d.removed, e.length = 16 ∧ e.take 8 ≠ zeros8) :
    getStatediff (saveStatediff db hsh d) hsh = some d := by
  obtain ⟨parent, added, removed⟩ := d
  dsimp only at hp ha hr
  have hpv : parent.getD 0 < 2 ^ 64 := by
    cases parent with
    | none => norm_num
    | some p => exact (hp p rfl).2
  have h256 : (256 : Nat) ^ 8 = 2 ^ 64 := by norm_num
  have hval : getStatediff (saveStatediff db hsh ⟨parent, added, removed⟩) hsh
      = parseStatediff (statediffValue ⟨parent, added, removed⟩) := by
    simp [getStatediff, saveStatediff]
  rw [hval]
  unfold parseStatediff statediffValue
  dsimp only
  rw [List.append_assoc]
  have hlen8 : (toBytesBE 8 (parent.getD 0)).length = 8 := length_toBytesBE 8 _
  rw [if_pos (by simp [List.length_append, hlen8])]
  rw [List.take_left' hlen8, List.drop_left' hlen8]
  rw [fromBytesBE_toBytesBE 8 _ (h256 ▸ hpv)]
  rw [parseDiffEntries_sections added removed ha (fun x hx => (hr x hx).1)]
  have hparent :
      (if parent.getD 0 ≠ 0 then some (parent.getD 0) else none) = parent := by
    cases parent with
    | none => simp
    | some p => simp [(hp p rfl).1]
  simp [hparent]

/-! ## C3, C6, C7, C9: the visibility resolver -/

theorem userCanSeeEvent_eq_cached (db : StateDb) (cache : VisCache)
    (userId roomId eventId : Nat) :
    userCanSeeEvent db cache userId roomId eventId =
      cachedDecision (db.pduShortstatehash eventId) userId
        (userVisibilityValue db userId roomId) cache := by
  unfold userCanSeeEvent cachedDecision
  cases db.pduShortstatehash eventId with
  | none => rfl
  | some hsh => cases cache (userId, hsh) <;> rfl

theorem serverCanSeeEvent_eq_cached (db : StateDb) (cache : VisCache)
    (origin roomId eventId : Nat) :
    serverCanSeeEvent db cache origin roomId eventId =
      cachedDecision (db.pduShortstatehash eventId) origin
        (serverVisibilityValue db origin roomId) cache := by
  unfold serverCanSeeEvent cachedDecision
  cases db.pduShortstatehash eventId with
  | none => rfl
  | some hsh => cases cache (origin, hsh) <;> rfl

theorem cachedDecision_stable (lookup : Option Nat) (actor : Nat)
    (compute : Nat → Bool) (cache : VisCache)
    (hc : ∀ hsh v, lookup = some hsh → cache (actor, hsh) = some v → v = compute hsh) :
    ((cachedDecision lookup actor compute
        (cachedDecision lookup actor compute cache).2).1 =
      (cachedDecision lookup actor compute cache).1) ∧
    (∀ hsh, lookup = some hsh →
      (cachedDecision lookup actor compute
          (cacheErase (cachedDecision lookup actor compute cache).2 (actor, hsh))).1 =
        (cachedDecision lookup actor compute cache).1) := by
  cases hl : lookup with
  | none =>
    constructor
    · simp [cachedDecision]
    · intro hsh h; cases h
  | some hsh0 =>
    cases hc0 : cache (actor, hsh0) with
    | some v =>
      have hv := hc hsh0 v hl hc0
      constructor
      · simp [cachedDecision, hc0]
      · intro hsh h
        injection h with h; subst h
        simp [cachedDecision, hc0, cacheErase, hv]
    | none =>
      constructor
      · simp [cachedDecision, hc0, cacheInsert]
      · intro hsh h
        injection h with h; subst h
        simp [cachedDecision, hc0, cacheInsert, cacheErase]

/-- C3.  Visibility cache consistency: for each of `user_can_see_event` and
`server_can_see_event`, calling twice with the same (actor, room, event)
returns the same boolean, and evicting the (actor, snapshot handle) cache
entry between the two calls also reproduces the same boolean, provided every
pre-existing cache entry for that key agrees with the recomputation (which
is how the functions themselves populate the caches) — the cache is only an
optimization. -/
theorem visibility_cache_consistency
    (db : StateDb) (cu cs : VisCache) (userId origin roomId eventId : Nat)
    (hcu : ∀ hsh v, db.pduShortstatehash eventId = some hsh →
      cu (userId, hsh) = some v → v = userVisibilityValue db userId roomId hsh)
    (hcs : ∀ hsh v, db.pduShortstatehash eventId = some hsh →
      cs (origin, hsh) = some v → v = serverVisibilityValue db origin roomId hsh) :
    ((userCanSeeEvent db (userCanSeeEvent db cu userId roomId eventId).2
        userId roomId eventId).1 =
      (userCanSeeEvent db cu userId roomId eventId).1) ∧
    (∀ hsh, db.pduShortstatehash eventId = some hsh →
      (userCanSeeEvent db
          (cacheErase (userCanSeeEvent db cu userId roomId eventId).2 (userId, hsh))
          userId roomId eventId).1 =
        (userCanSeeEvent db cu userId roomId eventId).1) ∧
    ((serverCanSeeEvent db (serverCanSeeEvent db cs origin roomId eventId).2
        origin roomId eventId).1 =
      (serverCanSeeEvent db cs origin roomId eventId).1) ∧
    (∀ hsh, db.pduShortstatehash eventId = some hsh →
      (serverCanSeeEvent db
          (cacheErase (serverCanSeeEvent db cs origin roomId eventId).2 (origin, hsh))
          origin roomId eventId).1 =
        (serverCanSeeEvent db cs origin roomId eventId).1) := by
  simp only [userCanSeeEvent_eq_cached, serverCanSeeEvent_eq_cached]
  obtain ⟨hu1, hu2⟩ := cachedDecision_stable (db.pduShortstatehash eventId) userId
    (userVisibilityValue db userId roomId) cu hcu
  obtain ⟨hs1, hs2⟩ := cachedDecision_stable (db.pduShortstatehash eventId) origin
    (serverVisibilityValue db origin roomId) cs hcs
  exact ⟨hu1, hu2, hs1, hs2⟩

/-- Witness for C3 at a concrete database and caches. -/
theorem visibility_cache_consistency_witness :
    ((userCanSeeEvent
        ⟨fun _ => some 7, fun _ => none, fun _ _ => none, fun _ _ => true,
          fun _ => [], fun _ => 0⟩
        (userCanSeeEvent
          ⟨fun _ => some 7, fun _ => none, fun _ _ => none, fun _ _ => true,
            fun _ => [], fun _ => 0⟩
          (fun _ => none) 1 2 3).2 1 2 3).1 =
      (userCanSeeEvent
        ⟨fun _ => some 7, fun _ => none, fun _ _ => none, fun _ _ => true,
          fun _ => [], fun _ => 0⟩
        (fun _ => none) 1 2 3).1) ∧
    ((userCanSeeEvent
        ⟨fun _ => some 7, fun _ => none, fun _ _ => none, fun _ _ => true,
          fun _ => [], fun _ => 0⟩
        (cacheErase
          (userCanSeeEvent
            ⟨fun _ => some 7, fun _ => none, fun _ _ => none, fun _ _ => true,
              fun _ => [], fun _ => 0⟩
            (fun _ => none) 1 2 3).2 (1, 7)) 1 2 3).1 =
      (userCanSeeEvent
        ⟨fun _ => some 7, fun _ => none, fun _ _ => none, fun _ _ => true,
          fun _ => [], fun _ => 0⟩
        (fun _ => none) 1 2 3).1) :=
  ⟨(visibility_cache_consistency _ _ (fun _ => none) 1 4 2 3
      (fun _ v _ h => by cases h) (fun _ v _ h => by cases h)).1,
    (visibility_cache_consistency _ _ (fun _ => none) 1 4 2 3
      (fun _ v _ h => by cases h) (fun _ v _ h => by cases h)).2.1 7 rfl⟩

/-- C6.  Shared-visibility default for user actors: in a room whose state at
the event's snapshot has no `history_visibility` entry (defaulting to
shared), `user_can_see_event` returns `true` iff the user is currently a
joined member of the room, regardless of the user's membership at the
historical snapshot (the statement holds for every value of
`stateGetMember`). -/
theorem user_can_see_shared_default
    (db : StateDb) (cu : VisCache) (userId roomId eventId hsh : Nat)
    (hs : db.pduShortstatehash eventId = some hsh)
    (hmiss : cu (userId, hsh) = none)
    (hhv : db.stateGetHistoryVisibility hsh = none) :
    (userCanSeeEvent db cu userId roomId eventId).1 = db.isJoined userId roomId := by
  simp [userCanSeeEvent, hs, hmiss, userVisibilityValue, historyVisibilityAt, hhv]

/-- Witness for C6: a currently joined member whose historical membership at
the snapshot is `leave` still sees the event. -/
theorem user_can_see_shared_default_witness :
    (userCanSeeEvent
      ⟨fun _ => some 7, fun _ => none,
        fun _ _ => some (Except.ok MembershipState.leave),
        fun _ _ => true, fun _ => [], fun _ => 0⟩
      (fun _ => none) 1 2 3).1 = true :=
  user_can_see_shared_default _ _ 1 2 3 7 rfl rfl rfl

/-- C7.  Fail-open on missing snapshot: when the event-to-snapshot lookup
returns none, both `user_can_see_event` and `server_can_see_event` return
`true` and leave their caches untouched, consulting neither history
visibility nor membership (the statement holds for every such oracle). -/
theorem can_see_fail_open_missing_snapshot
    (db : StateDb) (cu cs : VisCache) (userId origin roomId eventId : Nat)
    (h : db.pduShortstatehash eventId = none) :
    userCanSeeEvent db cu userId roomId eventId = (true, cu) ∧
    serverCanSeeEvent db cs origin roomId eventId = (true, cs) := by
  constructor <;> simp [userCanSeeEvent, serverCanSeeEvent, h]

/-- Witness for C7. -/
theorem can_see_fail_open_missing_snapshot_witness :
    userCanSeeEvent
        ⟨fun _ => none, fun _ => none, fun _ _ => none, fun _ _ => false,
          fun _ => [], fun _ => 0⟩
        (fun _ => none) 1 2 3 = (true, fun _ => none) ∧
    serverCanSeeEvent
        ⟨fun _ => none, fun _ => none, fun _ _ => none, fun _ _ => false,
          fun _ => [], fun _ => 0⟩
        (fun _ => none) 4 2 3 = (true, fun _ => none) :=
  can_see_fail_open_missing_snapshot _ _ _ 1 4 2 3 rfl

/-- C9.  Server actors see shared history unconditionally: when the
snapshot's `history_visibility` is unset, malformed, or `shared`,
`server_can_see_event` returns `true` for every membership configuration
(the statement quantifies over all of them, so no membership is consulted);
the current members of the origin are consulted exactly for the `invited`
and `joined` levels, against their membership at the snapshot. -/
theorem server_can_see_shared_unconditional
    (db : StateDb) (cs : VisCache) (origin roomId eventId hsh : Nat)
    (hs : db.pduShortstatehash eventId = some hsh)
    (hmiss : cs (origin, hsh) = none) :
    ((db.stateGetHistoryVisibility hsh = none ∨
      db.stateGetHistoryVisibility hsh = some (.error ()) ∨
      db.stateGetHistoryVisibility hsh = some (.ok .shared)) →
      (serverCanSeeEvent db cs origin roomId eventId).1 = true) ∧
    (db.stateGetHistoryVisibility hsh = some (.ok .invited) →
      (serverCanSeeEvent db cs origin roomId eventId).1 =
        ((db.roomMembers roomId).filter (fun m => db.serverOf m == origin)).any
          (fun m => userWasInvited db hsh m)) ∧
    (db.stateGetHistoryVisibility hsh = some (.ok .joined) →
      (serverCanSeeEvent db cs origin roomId eventId).1 =
        ((db.roomMembers roomId).filter (fun m => db.serverOf m == origin)).any
          (fun m => userWasJoined db hsh m)) := by
  refine ⟨?_, ?_, ?_⟩ <;> intro hhv
  · rcases hhv with h | h | h <;>
      simp [serverCanSeeEvent, hs, hmiss, serverVisibilityValue, historyVisibilityAt, h]
  · simp [serverCanSeeEvent, hs, hmiss, serverVisibilityValue, historyVisibilityAt, hhv]
  · simp [serverCanSeeEvent, hs, hmiss, serverVisibilityValue, historyVisibilityAt, hhv]

/-- Witness for C9: shared visibility with no member of the origin server in
the room at all. -/
theorem server_can_see_shared_unconditional_witness :
    (serverCanSeeEvent
      ⟨fun _ => some 7, fun _ => some (Except.ok HistoryVisibility.shared),
        fun _ _ => none, fun _ _ => false, fun _ => [], fun _ => 0⟩
      (fun _ => none) 4 2 3).1 = true :=
  (server_can_see_shared_unconditional _ _ 4 2 3 7 rfl rfl).1 (Or.inr (Or.inr rfl))

/-- Witness for C1 at a concrete diff. -/
theorem statediff_save_get_roundtrip_witness :
    getStatediff
      (saveStatediff (fun _ => none) 1
        ⟨some 2, [toBytesBE 8 3 ++ toBytesBE 8 4], [toBytesBE 8 5 ++ toBytesBE 8 6]⟩) 1 =
      some ⟨some 2, [toBytesBE 8 3 ++ toBytesBE 8 4], [toBytesBE 8 5 ++ toBytesBE 8 6]⟩ :=
  statediff_save_get_roundtrip _ _ _
    (by intro p hp; injection hp with h; subst h; exact ⟨by decide, by decide⟩)
    (by decide) (by decide)

/-! ## C5: inbound transaction ceiling -/

/-- C5.  `send_transaction_message_route` rejects with a Forbidden error
every transaction with more than 50 PDUs or more than 100 EDUs, before any
PDU or EDU of the transaction is processed, so the server state is unchanged
on rejection. -/
theorem send_transaction_limits {State : Type} (env : TxnEnv State) (st : State)
    (authedOrigin : Nat) (body : TxnBody)
    (h : body.pdus.length > 50 ∨ body.edus.length > 100) :
    sendTransactionMessageRoute env st authedOrigin body =
      (.error .forbidden, st) := by
  unfold sendTransactionMessageRoute
  by_cases h1 : authedOrigin ≠ body.origin
  · rw [if_pos h1]
  · rw [if_neg h1]
    by_cases h2 : body.pdus.length > 50
    · rw [if_pos h2]
    · rw [if_neg h2, if_pos (by omega)]

/-- Witness for C5: a transaction with 51 PDUs. -/
theorem send_transaction_limits_witness :
    sendTransactionMessageRoute
        (⟨fun s _ _ => (.ok [], s), fun s _ _ => (.ok (), s)⟩ : TxnEnv Nat) 0 1
        ⟨1, List.range 51, []⟩ =
      (.error .forbidden, 0) :=
  send_transaction_limits _ 0 1 _ (Or.inl (by simp))

/-! ## C10: flush performs no durable write -/

theorem applyEffects_of_no_db (effs : List Effect)
    (h : ∀ e ∈ effs, ∃ m, e = Effect.channelSend m) :
    ∀ q, applyEffects q effs = q := by
  induction effs with
  | nil => intro q; rfl
  | cons e rest ih =>
    intro q
    obtain ⟨m, rfl⟩ := h e (by simp)
    exact ih (fun x hx => h x (by simp [hx])) q

theorem durableWrites_append (a b : List Effect) :
    durableWrites (a ++ b) = durableWrites a ++ durableWrites b := by
  simp [durableWrites, List.filterMap_append]

theorem durableWrites_channelSends {α : Type} (l : List α) (f : α → Msg) :
    durableWrites (l.map (fun x => Effect.channelSend (f x))) = [] := by
  induction l with
  | nil => rfl
  | cons x xs ih => simp only [List.map_cons, durableWrites,
      List.filterMap_cons] at ih ⊢; exact ih

theorem durableWrites_dbQueues (l : List (Destination × SendingEvent × List Nat)) :
    durableWrites (l.map (fun r => Effect.dbQueue r.1 r.2.1 r.2.2)) = l := by
  induction l with
  | nil => rfl
  | cons x xs ih => simpa [durableWrites, List.filterMap_cons] using ih

/-- C10.  Flush leaves the durable queue unchanged: `flush_servers` (and
`flush_room`) dispatch only in-memory `Flush` messages with an empty queue
id and write nothing durable, so the durable outbound queue is identical
before and after a flush — while every `send_pdu_*` and `send_edu_*`
operation persists its message(s) via `queue_requests` before dispatching
(its trace is durable writes of exactly its requests, followed by its
dispatches). -/
theorem flush_leaves_queue_unchanged :
    (∀ servers q, applyEffects q (flushServers servers) = q) ∧
    (∀ servers q, applyEffects q (flushRoom servers) = q) ∧
    (∀ servers, ∀ e ∈ flushServers servers,
      ∃ s, e = Effect.channelSend ⟨.normal s, .flush, []⟩) ∧
    (∀ c pduId user pushkey,
      durableWrites (sendPduPush c pduId user pushkey) =
          [(.push user pushkey, .pdu pduId,
            destKeyBytes (.push user pushkey) ++ toBytesBE 8 c)] ∧
        writesBeforeDispatches (sendPduPush c pduId user pushkey)) ∧
    (∀ c appserviceId pduId,
      durableWrites (sendPduAppservice c appserviceId pduId) =
          [(.appservice appserviceId, .pdu pduId,
            destKeyBytes (.appservice appserviceId) ++ toBytesBE 8 c)] ∧
        writesBeforeDispatches (sendPduAppservice c appserviceId pduId)) ∧
    (∀ c server serialized,
      durableWrites (sendEduServer c server serialized) =
          [(.normal server, .edu serialized,
            destKeyBytes (.normal server) ++ toBytesBE 8 c)] ∧
        writesBeforeDispatches (sendEduServer c server serialized)) ∧
    (∀ c servers pduId,
      (durableWrites (sendPduServers c servers pduId)).length = servers.length ∧
        writesBeforeDispatches (sendPduServers c servers pduId)) ∧
    (∀ c servers serialized,
      (durableWrites (sendEduServers c servers serialized)).length = servers.length ∧
        writesBeforeDispatches (sendEduServers c servers serialized)) := by
  have hflush : ∀ servers : List (List Nat), ∀ e ∈ flushServers servers,
      ∃ s, e = Effect.channelSend ⟨.normal s, .flush, []⟩ := by
    intro servers e he
    rw [flushServers, List.mem_map] at he
    obtain ⟨s, _, rfl⟩ := he
    exact ⟨s, rfl⟩
  have hsingle : ∀ (d : Destination) (ev : SendingEvent) (c : Nat),
      durableWrites
          ((queueRequests c [(d, ev)]).2 ++
            [.channelSend ⟨d, ev, (queueRequests c [(d, ev)]).1.headD []⟩]) =
        [(d, ev, destKeyBytes d ++ toBytesBE 8 c)] := by
    intro d ev c
    simp [durableWrites, queueRequests, List.filterMap_append]
  have hbatch : ∀ (reqs : List (Destination × SendingEvent)) (c : Nat)
      (disp : List Effect),
      (∀ e ∈ disp, ∃ m, e = Effect.channelSend m) →
      (durableWrites ((queueRequests c reqs).2 ++ disp)).length = reqs.length ∧
        writesBeforeDispatches ((queueRequests c reqs).2 ++ disp) := by
    intro reqs c disp hdisp
    constructor
    · rw [durableWrites_append]
      have hnil : durableWrites disp = [] := by
        induction disp with
        | nil => rfl
        | cons e rest ih =>
          obtain ⟨m, rfl⟩ := hdisp e (by simp)
          simpa [durableWrites, List.filterMap_cons] using
            ih (fun x hx => hdisp x (by simp [hx]))
      rw [hnil, List.append_nil]
      have hq2 : (queueRequests c reqs).2 =
          (reqs.enum.map (fun pr =>
            (pr.2.1, pr.2.2, destKeyBytes pr.2.1 ++ toBytesBE 8 (c + pr.1)))).map
            (fun r => Effect.dbQueue r.1 r.2.1 r.2.2) := rfl
      rw [hq2, durableWrites_dbQueues]
      simp
    · refine ⟨(queueRequests c reqs).2, disp, rfl, ?_, hdisp⟩
      intro e he
      rw [queueRequests] at he
      simp only [List.mem_map] at he
      obtain ⟨r, _, rfl⟩ := he
      exact ⟨_, _, _, rfl⟩
  have hflushm : ∀ servers : List (List Nat), ∀ e ∈ flushServers servers,
      ∃ m, e = Effect.channelSend m := by
    intro servers e he
    obtain ⟨s, rfl⟩ := hflush servers e he
    exact ⟨_, rfl⟩
  refine ⟨fun servers q => applyEffects_of_no_db _ (hflushm servers) q,
    fun servers q => applyEffects_of_no_db _ (hflushm servers) q,
    hflush, ?_, ?_, ?_, ?_, ?_⟩
  · intro c pduId user pushkey
    refine ⟨?_, ?_⟩
    · simpa using hsingle (.push user pushkey) (.pdu pduId) c
    · exact (hbatch [(.push user pushkey, .pdu pduId)] c _
        (fun e he => by simp at he; exact ⟨_, he⟩)).2
  · intro c appserviceId pduId
    refine ⟨?_, ?_⟩
    · simpa using hsingle (.appservice appserviceId) (.pdu pduId) c
    · exact (hbatch [(.appservice appserviceId, .pdu pduId)] c _
        (fun e he => by simp at he; exact ⟨_, he⟩)).2
  · intro c server serialized
    refine ⟨?_, ?_⟩
    · simpa using hsingle (.normal server) (.edu serialized) c
    · exact (hbatch [(.normal server, .edu serialized)] c _
        (fun e he => by simp at he; exact ⟨_, he⟩)).2
  · intro c servers pduId
    have hd : ∀ e ∈ ((servers.map
          (fun s => (Destination.normal s, SendingEvent.pdu pduId))).zip
            (queueRequests c (servers.map
              (fun s => (Destination.normal s, SendingEvent.pdu pduId)))).1).map
          (fun r => Effect.channelSend ⟨r.1.1, r.1.2, r.2⟩),
        ∃ m, e = Effect.channelSend m := by
      intro e he
      simp only [List.mem_map] at he
      obtain ⟨r, _, rfl⟩ := he
      exact ⟨_, rfl⟩
    have hb := hbatch (servers.map
      (fun s => (Destination.normal s, SendingEvent.pdu pduId))) c _ hd
    simpa [sendPduServers, List.length_map] using hb
  · intro c servers serialized
    have hd : ∀ e ∈ ((servers.map
          (fun s => (Destination.normal s, SendingEvent.edu serialized))).zip
            (queueRequests c (servers.map
              (fun s => (Destination.normal s, SendingEvent.edu serialized)))).1).map
          (fun r => Effect.channelSend ⟨r.1.1, r.1.2, r.2⟩),
        ∃ m, e = Effect.channelSend m := by
      intro e he
      simp only [List.mem_map] at he
      obtain ⟨r, _, rfl⟩ := he
      exact ⟨_, rfl⟩
    have hb := hbatch (servers.map
      (fun s => (Destination.normal s, SendingEvent.edu serialized))) c _ hd
    simpa [sendEduServers, List.length_map] using hb

/-- Witness for C10 at concrete inputs. -/
theorem flush_leaves_queue_unchanged_witness :
    applyEffects [] (flushServers [[65]]) = [] ∧
    durableWrites (sendPduPush 0 [1] [2] [3]) =
      [(.push [2] [3], .pdu [1], destKeyBytes (.push [2] [3]) ++ toBytesBE 8 0)] :=
  ⟨flush_leaves_queue_unchanged.1 [[65]] [],
    (flush_leaves_queue_unchanged.2.2.2.1 0 [1] [2] [3]).1⟩

/-! ## Decimal-rendering lemmas for the resolver -/

theorem fromDigits10_append_singleton (l : List Nat) (x : Nat) :
    (l ++ [x]).foldl (fun a d => a * 10 + d) 0 =
      l.foldl (fun a d => a * 10 + d) 0 * 10 + x := by
  simp [List.foldl_append]

theorem natDigitsAux_correct (fuel : Nat) :
    ∀ n, n ≤ fuel →
      (natDigitsAux fuel n).foldl (fun a d => a * 10 + d) 0 = n := by
  induction fuel with
  | zero => intro n hn; interval_cases n; rfl
  | succ fuel ih =>
    intro n hn
    by_cases h0 : n = 0
    · simp [natDigitsAux, h0]
    · rw [natDigitsAux, if_neg h0, fromDigits10_append_singleton,
        ih (n / 10) (by omega)]
      omega

theorem natDigitsAux_lt_ten (fuel : Nat) :
    ∀ n, ∀ d ∈ natDigitsAux fuel n, d < 10 := by
  induction fuel with
  | zero => intro n d hd; cases hd
  | succ fuel ih =>
    intro n d hd
    rw [natDigitsAux] at hd
    by_cases h0 : n = 0
    · rw [if_pos h0] at hd; cases hd
    · rw [if_neg h0, List.mem_append] at hd
      rcases hd with hd | hd
      · exact ih (n / 10) d hd
      · simp at hd; omega

theorem natDigitsAux_ne_nil (fuel n : Nat) (h0 : n ≠ 0) (hn : n ≤ fuel) :
    natDigitsAux fuel n ≠ [] := by
  cases fuel with
  | zero => omega
  | succ fuel => rw [natDigitsAux, if_neg h0]; simp

theorem digitChar_facts :
    ∀ d < 10, (digitChar d).isDigit = true ∧ (digitChar d).toNat - 48 = d ∧
      digitChar d ≠ '+' := by decide

theorem foldl_digitChar (l : List Nat) (hl : ∀ d ∈ l, d < 10) :
    ∀ a, (l.map digitChar).foldl (fun a c => a * 10 + (c.toNat - 48)) a =
      l.foldl (fun a d => a * 10 + d) a := by
  induction l with
  | nil => intro a; rfl
  | cons d ds ih =>
    intro a
    simp only [List.map_cons, List.foldl_cons]
    rw [(digitChar_facts d (hl d (by simp))).2.1]
    exact ih (fun x hx => hl x (by simp [hx])) _

theorem parseU16_natChars (p : Nat) (hp : p ≤ 65535) :
    parseU16 (natChars p) = some p := by
  by_cases h0 : p = 0
  · subst h0; decide
  · have hne := natDigitsAux_ne_nil p p h0 le_rfl
    have hlt := natDigitsAux_lt_ten p p
    have hmapne : (natDigitsAux p p).map digitChar ≠ [] := by simpa using hne
    have hhead : ((natDigitsAux p p).map digitChar).head? ≠ some '+' := by
      cases hd : natDigitsAux p p with
      | nil => exact absurd hd hne
      | cons d ds =>
        have hdlt : d < 10 := hlt d (by rw [hd]; simp)
        simp [(digitChar_facts d hdlt).2.2]
    have hdig : ((natDigitsAux p p).map digitChar).all (fun c => c.isDigit) = true := by
      rw [List.all_eq_true]
      intro c hc
      rw [List.mem_map] at hc
      obtain ⟨d, hd, rfl⟩ := hc
      exact (digitChar_facts d (hlt d hd)).1
    rw [natChars, if_neg h0]
    dsimp only [parseU16]
    rw [if_neg hhead]
    rw [if_pos ⟨hmapne, hdig⟩]
    rw [foldl_digitChar _ hlt, natDigitsAux_correct p p le_rfl, if_pos hp]

/-! ## C8: DNS error classification -/

/-- C8.  A resolver error of I/O kind is surfaced as an error to the caller,
while every other resolver error kind is treated as absence of a record:
`query_srv_record` proceeds from the first SRV name to the legacy one and
returns `Ok(None)` when both fail non-fatally, and `query_and_cache_override`
returns `Ok` without touching the override cache on a non-fatal error. -/
theorem dns_error_classification :
    (∀ (env : ResolveEnv) (hostname : List Char) (k1 k2 : ResolveErrorKind),
      env.srvLookup (srvName1 hostname) = .error k1 → k1 ≠ .io →
      env.srvLookup (srvName2 hostname) = .error k2 → k2 ≠ .io →
      querySrvRecord env hostname = .ok none) ∧
    (∀ (env : ResolveEnv) (hostname : List Char),
      env.srvLookup (srvName1 hostname) = .error .io →
      querySrvRecord env hostname = .error .dnsIo) ∧
    (∀ (env : ResolveEnv) (hostname : List Char) (k1 : ResolveErrorKind),
      env.srvLookup (srvName1 hostname) = .error k1 → k1 ≠ .io →
      env.srvLookup (srvName2 hostname) = .error .io →
      querySrvRecord env hostname = .error .dnsIo) ∧
    (∀ (env : ResolveEnv) (ov : Overrides) (overname hostname : List Char)
      (port : Nat) (k : ResolveErrorKind),
      env.dnsLookupIp hostname = .error k → k ≠ .io →
      queryAndCacheOverride env ov overname hostname port = .ok ov) ∧
    (∀ (env : ResolveEnv) (ov : Overrides) (overname hostname : List Char)
      (port : Nat),
      env.dnsLookupIp hostname = .error .io →
      queryAndCacheOverride env ov overname hostname port = .error .dnsIo) := by
  refine ⟨?_, ?_, ?_, ?_, ?_⟩
  · intro env hostname k1 k2 h1 hk1 h2 hk2
    cases k1 <;> cases k2 <;>
      simp_all [querySrvRecord, handleResolveError]
  · intro env hostname h1
    simp [querySrvRecord, h1, handleResolveError]
  · intro env hostname k1 h1 hk1 h2
    cases k1 <;> simp_all [querySrvRecord, handleResolveError]
  · intro env ov overname hostname port k h hk
    cases k <;> simp_all [queryAndCacheOverride, handleResolveError]
  · intro env ov overname hostname port h
    simp [queryAndCacheOverride, h, handleResolveError]

/-- Witness for C8: non-fatal failures of both SRV names and of an IP
lookup. -/
theorem dns_error_classification_witness :
    querySrvRecord srvErrEnv ['b'] = .ok none ∧
    queryAndCacheOverride srvErrEnv (fun _ => none) ['a'] ['b'] 1 =
      .ok (fun _ => none) :=
  ⟨dns_error_classification.1 srvErrEnv ['b'] .noRecordsFound .noRecordsFound
      rfl (by decide) rfl (by decide),
    dns_error_classification.2.2.2.1 srvErrEnv (fun _ => none) ['a'] ['b'] 1
      .noRecordsFound rfl (by decide)⟩

/-! ## C4: delegation fetch failure handling -/

/-- C4 counterexample.  `request_well_known` does not always avoid returning
an error: when the fetch succeeds with a 2xx status but reading the response
body fails, the `?` on `response.text().await` propagates an error to the
caller. -/
theorem request_well_known_error_counterexample :
    requestWellKnown wkBodyFailEnv (fun _ => none) ['a'] = .error .httpBody := rfl

/-- C4 (amended).  Provided the preliminary DNS caching step succeeds,
`request_well_known` returns `Ok(None)` — falling through to SRV lookup —
for each listed failure of the well-known fetch: network error on the
request, non-2xx status, response body of 12288 bytes or more, or a body
whose extracted `m.server` value fails server-name validation (which is what
a non-JSON body or a missing field produce).  An error is returned only by
the preliminary DNS step (I/O-class resolver failure) or by a failure while
reading the body of a successful response. -/
theorem request_well_known_fallthrough
    (env : ResolveEnv) (ov ov1 : Overrides) (dest : List Char)
    (hpre : wkPrefetch env ov dest = .ok ov1)
    (hfail :
      env.httpGetWellKnown dest = .error () ∨
      (∃ status body, env.httpGetWellKnown dest = .ok (status, body) ∧
        ¬ (200 ≤ status ∧ status < 300)) ∨
      (∃ status text, env.httpGetWellKnown dest = .ok (status, .ok text) ∧
        (200 ≤ status ∧ status < 300) ∧
        (12288 ≤ text.length ∨
          env.validServerName (env.mServer text) = false))) :
    requestWellKnown env ov dest = .ok (none, ov1) := by
  rcases hfail with h | ⟨status, body, h, hns⟩ | ⟨status, text, h, hs, hrest⟩
  · simp [requestWellKnown, hpre, h]
  · simp [requestWellKnown, hpre, h, hns]
  · by_cases hl : 12288 ≤ text.length
    · simp [requestWellKnown, hpre, h, hs.1, hs.2, hl]
    · rcases hrest with hlen | hval
      · omega
      · simp [requestWellKnown, hpre, h, hs.1, hs.2, hl, hval]

/-- Witness for C4 (amended): a 404 response falls through to `Ok(None)`. -/
theorem request_well_known_fallthrough_witness :
    requestWellKnown wkNotFoundEnv (fun _ => none) ['a'] =
      .ok (none, ovInsert (fun _ => none) ['a'] ([1], 8448)) :=
  request_well_known_fallthrough wkNotFoundEnv (fun _ => none) _ ['a'] rfl
    (Or.inr (Or.inl ⟨404, .ok [], rfl, by decide⟩))

/-! ## C2: destination resolution through delegation and SRV -/

theorem findColon_append_colon (s t : List Char) (hs : findColon s = none) :
    findColon (s ++ ':' :: t) = some s.length := by
  induction s with
  | nil => simp [findColon]
  | cons c cs ih =>
    simp only [List.cons_append]
    rw [findColon] at hs ⊢
    by_cases hc : c = ':'
    · rw [if_pos hc] at hs; cases hs
    · rw [if_neg hc] at hs ⊢
      have hcs : findColon cs = none := by
        cases h : findColon cs with
        | none => rfl
        | some v => rw [h] at hs; cases hs
      rw [ih hcs]
      simp

/-- C2 counterexample.  In the delegated-hostname-and-SRV scenario
(`a` delegates to `b`, SRV for `b` gives target `c` port 9001) the host
header returned by `resolve_actual_destination` is `b:8448`, not `b:9001`:
the tracked hostname is set from `add_port_to_hostname(delegated_hostname)`
before the SRV lookup and never updated with the SRV port. -/
theorem resolve_actual_destination_counterexample :
    resolveActualDestination delegSrvEnv (fun _ => none) "a".toList =
      .ok (.named "b".toList (':' :: natChars 9001), "b:8448".toList,
        ovInsert (ovInsert (fun _ => none) "a".toList ([1], 8448))
          "b".toList ([2], 9001)) ∧
    "b:8448".toList ≠ "b".toList ++ (':' :: natChars 9001) := by
  exact ⟨rfl, by decide⟩

/-- C2 (amended).  For a server name that is no IP literal and has no colon,
when the well-known fetch yields a delegated hostname `h2` (no IP literal,
no port) and the federation SRV lookup for `h2` yields target `h3` with
port `p`, `resolve_actual_destination` returns the actual destination
(`h2` with port `p`), updates the override cache to map `h2` to the
resolved IPs of `h3` with port `p` (so the connection goes to `h3`'s IPs on
port `p`), and returns the host-header string `h2:8448` — the delegated
hostname with the default port, not with the SRV port. -/
theorem resolve_actual_destination_delegated_srv
    (env : ResolveEnv) (ov ov1 : Overrides) (destStr h2 h3 : List Char)
    (p : Nat) (ips : List Nat)
    (hnosock : env.parseSocketAddr destStr = none)
    (hnoip : env.parseIpAddr destStr = none)
    (hnocolon : findColon destStr = none)
    (hwk : requestWellKnown env ov destStr = .ok (some h2, ov1))
    (h2nosock : env.parseSocketAddr h2 = none)
    (h2noip : env.parseIpAddr h2 = none)
    (h2nocolon : findColon h2 = none)
    (hsrv : env.srvLookup (srvName1 h2) = .ok [(h3, p)])
    (htrim : trimDots h3 = h3)
    (hp : p ≤ 65535)
    (hdns : env.dnsLookupIp h3 = .ok ips)
    (hh8nosock : env.parseSocketAddr (h2 ++ ":8448".toList) = none)
    (hh8noip : env.parseIpAddr (h2 ++ ":8448".toList) = none) :
    resolveActualDestination env ov destStr =
      .ok (.named h2 (':' :: natChars p), h2 ++ ":8448".toList,
        ovInsert ov1 h2 (ips, p)) ∧
    ovInsert ov1 h2 (ips, p) h2 = some (ips, p) := by
  have hip1 : getIpWithPort env destStr = none := by
    simp [getIpWithPort, hnosock, hnoip]
  have hip2 : getIpWithPort env h2 = none := by
    simp [getIpWithPort, h2nosock, h2noip]
  have hsrvq : querySrvRecord env h2 = .ok (some (.named h3 (':' :: natChars p))) := by
    simp [querySrvRecord, hsrv, handleSuccessfulSrv, htrim]
  have hport : fedDestPort (FedDest.named h3 (':' :: natChars p)) = some p := by
    simp [fedDestPort, parseU16_natChars p hp]
  have hqco : queryAndCacheOverride env ov1 h2 h3 p = .ok (ovInsert ov1 h2 (ips, p)) := by
    simp [queryAndCacheOverride, hdns]
  have haddp : addPortToHostname h2 = .named h2 ":8448".toList := by
    simp [addPortToHostname, h2nocolon]
  have hfc : findColon (h2 ++ ":8448".toList) = some h2.length := by
    rw [show ":8448".toList = ':' :: "8448".toList from rfl,
      findColon_append_colon h2 _ h2nocolon]
  have hhdr : hostnameToHeader env (h2 ++ ":8448".toList) = h2 ++ ":8448".toList := by
    rw [hostnameToHeader, hh8nosock, hh8noip, hfc]
    dsimp only
    rw [List.take_left' rfl, List.drop_left' rfl]
    rfl
  refine ⟨?_, by simp [ovInsert]⟩
  simp only [resolveActualDestination, hip1, hnocolon, hwk, haddp, hip2,
    h2nocolon, hsrvq, hport, hqco, hhdr, fedDestUriString, fedDestHostname,
    Option.getD_some]

/-- Witness for C2 (amended) at the concrete delegated-SRV environment. -/
theorem resolve_actual_destination_delegated_srv_witness :
    resolveActualDestination delegSrvEnv (fun _ => none) "a".toList =
      .ok (.named "b".toList (':' :: natChars 9001),
        "b".toList ++ ":8448".toList,
        ovInsert (ovInsert (fun _ => none) "a".toList ([1], 8448))
          "b".toList ([2], 9001)) ∧
    ovInsert (ovInsert (fun _ => none) "a".toList ([1], 8448))
        "b".toList ([2], 9001) "b".toList = some ([2], 9001) :=
  resolve_actual_destination_delegated_srv delegSrvEnv (fun _ => none) _
    "a".toList "b".toList "c".toList 9001 [2]
    rfl rfl rfl rfl rfl rfl rfl rfl rfl (by decide) rfl rfl rfl

end Conduit
